import Mathlib

/-!
# Navigation shell of `client/src/App.js`

`App` renders a fixed `AppBar` holding two `Button` links and, below it, a
`Routes` block with two `Route` entries.  The file embeds the element tree
returned by `App` and the part of react-router-dom (version 6, the version
that introduced `Routes` and the `element` prop) that decides which `Route`
element is rendered for a location pathname.  No release of the router is
pinned by the sources, so the one step on which the releases of version 6
differ, the decoding of the pathname, is a parameter (`Decoder`).
-/

namespace Client

/-- The two screen components imported by `App.js` (lines 6 and 7). -/
inductive Screen where
  | Register
  | Login
  deriving DecidableEq, Repr

/-- Identifier under which a screen component is imported in `App.js`. -/
def Screen.name : Screen → String
  | .Register => "Register"
  | .Login => "Login"

/-- A `Route` element: its `path` prop and its `element` prop. -/
structure Route where
  path : String
  element : Screen
  deriving DecidableEq, Repr

/-- A `Button` of the bar: its text child and the `to` prop handed to `Link`
(`to` is a reserved word here, hence `toPath`). -/
structure Button where
  label : String
  toPath : String
  deriving DecidableEq, Repr

/-- What `App` puts on the page: the children of `AppBar` and the screens
mounted by the `Routes` block (none when `Routes` renders `null`). -/
structure View where
  bar : List Button
  content : List Screen
  deriving DecidableEq, Repr

/-- Children of `AppBar`, `App.js` lines 14 to 19, in source order. -/
def AppBar : List Button :=
  [⟨"Login", "/login"⟩, ⟨"Register", "/register"⟩]

/-- Children of `Routes`, `App.js` lines 23 and 24, in source order. -/
def ScreenRegistry : List Route :=
  [⟨"/register", Screen.Register⟩, ⟨"/login", Screen.Login⟩]

/-! ## react-router-dom: matching a pathname against a route path

The definitions below follow react-router 6 for route paths that are static,
that is, contain no `:param` segment, no `*` and no `?`; both paths used by
`App` are static.  Characters are compared the way a JavaScript regular
expression with flag `i` compares them when the pattern is ASCII. -/

/-- Canonical form of a character under the regular-expression flag `i`:
ASCII letters are upper-cased; a non-ASCII character never becomes ASCII. -/
def canonicalize (c : Char) : Char := c.toUpper

/-- Removes the slashes at the front of a path. -/
def dropLeadingSlashes : List Char → List Char
  | [] => []
  | c :: cs => if c = '/' then dropLeadingSlashes cs else c :: cs

/-- Removes the slashes at the end of a path. -/
def dropTrailingSlashes (cs : List Char) : List Char :=
  (dropLeadingSlashes cs.reverse).reverse

/-- The literal text that `compilePath` turns into the regular expression
`^text\/*$` with flag `i`: trailing slashes of the route path are dropped and
the path is made to start with exactly one slash. -/
def compilePath (path : String) : List Char :=
  '/' :: dropLeadingSlashes (dropTrailingSlashes path.data)

/-- Does the regular expression `^text\/*$` with flag `i` accept the input:
the text is matched letter by letter, ignoring ASCII case, and only slashes
may follow it. -/
def regexTest : List Char → List Char → Bool
  | [], rest => rest.all (fun c => c = '/')
  | _ :: _, [] => false
  | p :: ps, c :: cs => canonicalize p = canonicalize c && regexTest ps cs

/-- The `matchPath` test used for a leaf route (`caseSensitive` unset, hence
false, and `end` true). -/
def matchPath (path pathname : String) : Bool :=
  regexTest (compilePath path) pathname.data

/-- JavaScript `path.split("/")` on a list of characters. -/
def splitSlash : List Char → List (List Char)
  | [] => [[]]
  | c :: cs =>
    match splitSlash cs with
    | [] => if c = '/' then [[], []] else [[c]]
    | seg :: rest => if c = '/' then [] :: seg :: rest else (c :: seg) :: rest

/-- The replacement of every run of slashes by one slash that `joinPaths`
performs. -/
def collapseSlashes : List Char → List Char
  | [] => []
  | c :: cs =>
    if c = '/' ∧ cs.head? = some '/' then collapseSlashes cs
    else c :: collapseSlashes cs

/-- The full path of a top-level route, `joinPaths(["", path])`. -/
def joinPaths (path : String) : List Char :=
  collapseSlashes ('/' :: path.data)

/-- The `computeScore` rank of a static route path: the number of segments of
its full path, plus 1 for every empty segment and 10 for every other
segment. -/
def computeScore (path : String) : Nat :=
  let segments := splitSlash (joinPaths path)
  segments.length + (segments.map (fun s => if s = [] then 1 else 10)).sum

/-- The order in which `matchRoutes` tries sibling routes
(`rankRouteBranches`): higher score first, equal scores in source order. -/
def rankRouteBranches (routes : List Route) : List Route :=
  routes.insertionSort (fun a b => computeScore b.path ≤ computeScore a.path)

/-- The decoding that `matchRoutes` applies to the pathname before matching.
It differs between releases of react-router 6: releases 6.0 to 6.3 match the
pathname as it stands, later releases percent-decode it first (`decodeURI`,
then `decodePath`, each handing back the pathname unchanged when it cannot be
decoded).  The one fact used, true of every release, is that a pathname
without a percent sign is left as it is. -/
structure Decoder where
  decode : String → String
  fixes : ∀ s : String, '%' ∉ s.data → decode s = s

/-- The decoder of releases 6.0 to 6.3: the pathname is matched as it
stands. -/
def Decoder.raw : Decoder :=
  { decode := fun s => s, fixes := fun _ _ => rfl }

/-- The pathname that `matchRoutes` matches against the route paths: an
empty location pathname is read as `/`, and the result is decoded. -/
def decodedPathname (d : Decoder) (pathname : String) : String :=
  d.decode (if pathname = "" then "/" else pathname)

/-- The element rendered by `<Routes>` for a location pathname: the element
of the first ranked route whose path matches the decoded pathname, or
nothing. -/
def Routes (d : Decoder) (routes : List Route) (pathname : String) :
    Option Screen :=
  ((rankRouteBranches routes).find?
    (fun r => matchPath r.path (decodedPathname d pathname))).map Route.element

/-- The `App` component of `App.js`, as a function of the location pathname
supplied by the enclosing router. -/
def App (d : Decoder) (pathname : String) : View :=
  { bar := AppBar, content := (Routes d ScreenRegistry pathname).toList }

/-- The lookup performed by the `Routes` block of `App` (the spec names it
`resolve`); `none` is the "not found" result. -/
def resolve (d : Decoder) (path : String) : Option Screen :=
  Routes d ScreenRegistry path

/-- Modelled from the spec: the current path held by the router that encloses
`App` (the router is set up outside `App.js`). -/
structure NavigationState where
  path : String
  deriving DecidableEq, Repr

/-- Modelled from the spec: `navigate(targetPath)` sets the current path to
`targetPath`; the router that performs it is set up outside `App.js`. -/
def navigate (targetPath : String) (_s : NavigationState) : NavigationState :=
  { path := targetPath }

/-- Modelled from the spec: `renderShell()` renders `App` at the current path. -/
def renderShell (d : Decoder) (s : NavigationState) : View :=
  App d s.path

/-! ## Facts about the matcher -/

theorem regexTest_iff (pat cs : List Char) :
    regexTest pat cs = true ↔
      ∃ pre k, cs = pre ++ List.replicate k '/' ∧
        pre.map canonicalize = pat.map canonicalize := by
  induction pat generalizing cs with
  | nil =>
    simp only [regexTest, List.map_nil, List.map_eq_nil_iff]
    constructor
    · intro h
      refine ⟨[], cs.length, ?_, rfl⟩
      rw [List.nil_append, List.eq_replicate_iff]
      refine ⟨rfl, fun b hb => ?_⟩
      have := List.all_eq_true.mp h b hb
      simpa using this
    · rintro ⟨pre, k, rfl, rfl⟩
      simp
  | cons p ps ih =>
    cases cs with
    | nil =>
      simp only [regexTest, Bool.false_eq_true, false_iff]
      rintro ⟨pre, k, h1, h2⟩
      cases pre with
      | nil => simp at h2
      | cons x xs => simp at h1
    | cons c cs =>
      simp only [regexTest, Bool.and_eq_true, decide_eq_true_eq, ih]
      constructor
      · rintro ⟨hc, pre, k, rfl, hpre⟩
        exact ⟨c :: pre, k, rfl, by simp [hc, hpre]⟩
      · rintro ⟨pre, k, h1, h2⟩
        cases pre with
        | nil => simp at h2
        | cons x xs =>
          simp only [List.cons_append, List.cons.injEq] at h1
          simp only [List.map_cons, List.cons.injEq] at h2
          obtain ⟨rfl, rfl⟩ := h1
          exact ⟨h2.1.symm, xs, k, rfl, h2.2⟩

theorem compilePath_register : compilePath "/register" = "/register".data := by
  decide

theorem compilePath_login : compilePath "/login" = "/login".data := by
  decide

theorem matchPath_exclusive (u : String) :
    ¬ (matchPath "/register" u = true ∧ matchPath "/login" u = true) := by
  unfold matchPath
  rw [compilePath_register, compilePath_login]
  rcases u.data with _ | ⟨a, _ | ⟨b, t⟩⟩
  · simp [regexTest]
  · simp [regexTest]
  · simp only [regexTest, Bool.and_eq_true, decide_eq_true_eq]
    rintro ⟨⟨_, h1, _⟩, ⟨_, h2, _⟩⟩
    have h : canonicalize 'r' = canonicalize 'l' := h1.trans h2.symm
    exact absurd h (by decide)

theorem rank_registry : rankRouteBranches ScreenRegistry = ScreenRegistry := by
  decide

theorem rank_registry_reverse :
    rankRouteBranches ScreenRegistry.reverse = ScreenRegistry.reverse := by
  decide

theorem decodedPathname_of_fixed (d : Decoder) (u : String)
    (h : '%' ∉ u.data) :
    decodedPathname d u = if u = "" then "/" else u := by
  unfold decodedPathname
  apply d.fixes
  split
  · decide
  · exact h

theorem Routes_of_fixed (d : Decoder) (rs : List Route) (u : String)
    (h : '%' ∉ u.data) : Routes d rs u = Routes Decoder.raw rs u := by
  unfold Routes
  rw [decodedPathname_of_fixed d u h, decodedPathname_of_fixed Decoder.raw u h]

theorem App_of_fixed (d : Decoder) (u : String) (h : '%' ∉ u.data) :
    App d u = App Decoder.raw u := by
  unfold App
  rw [Routes_of_fixed d _ u h]

theorem resolve_of_fixed (d : Decoder) (u : String) (h : '%' ∉ u.data) :
    resolve d u = resolve Decoder.raw u :=
  Routes_of_fixed d _ u h

theorem Routes_registry (d : Decoder) (u : String) :
    Routes d ScreenRegistry u =
      if matchPath "/register" (decodedPathname d u) = true then
        some Screen.Register
      else if matchPath "/login" (decodedPathname d u) = true then
        some Screen.Login
      else none := by
  simp only [Routes, rank_registry, ScreenRegistry, List.find?]
  cases h1 : matchPath "/register" (decodedPathname d u) <;>
    cases h2 : matchPath "/login" (decodedPathname d u) <;> simp

theorem Routes_registry_reverse (d : Decoder) (u : String) :
    Routes d ScreenRegistry.reverse u = Routes d ScreenRegistry u := by
  rw [Routes_registry]
  have hx := matchPath_exclusive (decodedPathname d u)
  simp only [Routes, rank_registry_reverse, ScreenRegistry,
    List.reverse_cons, List.reverse_nil, List.nil_append, List.cons_append,
    List.find?]
  cases h1 : matchPath "/register" (decodedPathname d u) <;>
    cases h2 : matchPath "/login" (decodedPathname d u) <;> simp_all

theorem perm_registry (rs : List Route) (h : rs.Perm ScreenRegistry) :
    rs = ScreenRegistry ∨ rs = ScreenRegistry.reverse := by
  have hlen : rs.length = 2 := h.length_eq
  obtain ⟨a, b, rfl⟩ := List.length_eq_two.mp hlen
  have ha : a ∈ ScreenRegistry := h.subset (by simp)
  have hb : b ∈ ScreenRegistry := h.subset (by simp)
  have hnd : [a, b].Nodup := h.nodup_iff.mpr (by decide)
  simp only [ScreenRegistry, List.mem_cons, List.mem_singleton, List.not_mem_nil,
    or_false] at ha hb
  rcases ha with rfl | rfl <;> rcases hb with rfl | rfl <;>
    simp_all [ScreenRegistry]

theorem render_navigate (d : Decoder) (p : String) (s : NavigationState) :
    renderShell d (navigate p s) = App d p := rfl

/-- A route path matches a pathname exactly when the pathname is a text equal
to the route path up to ASCII letter case, followed by any number of
slashes (stated for the two paths of the registry). -/
theorem matchPath_registry_iff (r : Route) (hr : r ∈ ScreenRegistry)
    (v : String) :
    matchPath r.path v = true ↔
      ∃ pre k, v.data = pre ++ List.replicate k '/' ∧
        pre.map Char.toUpper = r.path.data.map Char.toUpper := by
  simp only [ScreenRegistry, List.mem_cons, List.mem_singleton, List.not_mem_nil,
    or_false] at hr
  rcases hr with rfl | rfl
  · show regexTest (compilePath "/register") v.data = true ↔ _
    rw [compilePath_register, regexTest_iff]
    rfl
  · show regexTest (compilePath "/login") v.data = true ↔ _
    rw [compilePath_login, regexTest_iff]
    rfl

/-- What a pathname with percent signs renders depends on the release: it is
blank when the pathname is matched as it stands, and the Login screen when
the decoder turns it into `/login`; decoders of the second kind exist. -/
theorem percent_path_follows_decoder :
    resolve Decoder.raw "/log%69n" = none ∧
      (∀ d : Decoder, d.decode "/log%69n" = "/login" →
        resolve d "/log%69n" = some Screen.Login) ∧
      ∃ d : Decoder, d.decode "/log%69n" = "/login" := by
  refine ⟨by decide, fun d hd => ?_, ?_⟩
  · have h : decodedPathname d "/log%69n" = "/login" := by
      unfold decodedPathname
      rw [if_neg (by decide), hd]
    unfold resolve
    rw [Routes_registry, h]
    decide
  · have hf : ∀ s : String, '%' ∉ s.data →
        (if s = "/log%69n" then "/login" else s) = s := by
      intro s hs
      by_cases h : s = "/log%69n"
      · subst h
        exact absurd hs (by decide)
      · simp [h]
    exact ⟨⟨fun s => if s = "/log%69n" then "/login" else s, hf⟩, rfl⟩

/-! ## The claims

Every statement holds for every `Decoder`, that is, for every release of the
router. -/

/-- C1: for each registered path, `"/login"` or `"/register"`, `navigate(p)`
followed by `renderShell()` yields the bar plus exactly the screen registered
at `p`: `"/login"` mounts Login and not Register, `"/register"` mounts
Register and not Login. -/
theorem registered_path_shows_its_screen (d : Decoder) (p : String)
    (s : NavigationState) (hp : p = "/login" ∨ p = "/register") :
    (∀ r ∈ ScreenRegistry, r.path = p →
        renderShell d (navigate p s) = { bar := AppBar, content := [r.element] }) ∧
      (p = "/login" →
        renderShell d (navigate p s) =
            { bar := AppBar, content := [Screen.Login] } ∧
          Screen.Register ∉ (renderShell d (navigate p s)).content) ∧
      (p = "/register" →
        renderShell d (navigate p s) =
            { bar := AppBar, content := [Screen.Register] } ∧
          Screen.Login ∉ (renderShell d (navigate p s)).content) := by
  simp only [render_navigate]
  rcases hp with rfl | rfl
  · rw [App_of_fixed d "/login" (by decide)]
    refine ⟨?_, fun _ => by decide, fun h => absurd h (by decide)⟩
    intro r hr hpath
    simp only [ScreenRegistry, List.mem_cons, List.mem_singleton, List.not_mem_nil,
      or_false] at hr
    rcases hr with rfl | rfl
    · exact absurd hpath (by decide)
    · decide
  · rw [App_of_fixed d "/register" (by decide)]
    refine ⟨?_, fun h => absurd h (by decide), fun _ => by decide⟩
    intro r hr hpath
    simp only [ScreenRegistry, List.mem_cons, List.mem_singleton, List.not_mem_nil,
      or_false] at hr
    rcases hr with rfl | rfl
    · decide
    · exact absurd hpath (by decide)

theorem registered_path_shows_its_screen_witness :
    renderShell Decoder.raw (navigate "/login" { path := "/" }) =
        { bar := AppBar, content := [Screen.Login] } ∧
      Screen.Register ∉
        (renderShell Decoder.raw (navigate "/login" { path := "/" })).content :=
  (registered_path_shows_its_screen Decoder.raw "/login" { path := "/" }
    (Or.inl rfl)).2.1 rfl

/-- C2, as stated, fails: `"/Login"` and `"/login/"` are path strings other
than `"/login"` and `"/register"`, yet after navigating to either one the
Login screen is mounted, in every release of the router, because route paths
are compared without regard to letter case and to trailing slashes. -/
theorem other_path_mounts_login :
    "/Login" ≠ "/login" ∧ "/Login" ≠ "/register" ∧
      "/login/" ≠ "/login" ∧ "/login/" ≠ "/register" ∧
      ∀ d : Decoder,
        renderShell d (navigate "/Login" { path := "/" }) =
          { bar := AppBar, content := [Screen.Login] } ∧
        renderShell d (navigate "/login/" { path := "/" }) =
          { bar := AppBar, content := [Screen.Login] } := by
  refine ⟨by decide, by decide, by decide, by decide, fun d => ?_⟩
  simp only [render_navigate]
  rw [App_of_fixed d "/Login" (by decide), App_of_fixed d "/login/" (by decide)]
  decide

/-- C2, amended: for every path `u` that no Route matches once the router has
decoded it, that is, the decoded pathname is not, for any Route, a text equal
to the route path up to ASCII letter case followed by any number of slashes,
`navigate(u)` followed by `renderShell()` yields the bar with an empty
content region.  A path without a percent sign is decoded to itself by every
release, so for such a path the condition can be read on `u` itself; `"/"`,
`""` and `"/login/x"` are such paths. -/
theorem unmatched_path_renders_blank (d : Decoder) (u : String)
    (s : NavigationState) :
    ((∀ r ∈ ScreenRegistry,
        ¬ ∃ pre k, (decodedPathname d u).data = pre ++ List.replicate k '/' ∧
          pre.map Char.toUpper = r.path.data.map Char.toUpper) →
        renderShell d (navigate u s) = { bar := AppBar, content := [] }) ∧
      ('%' ∉ u.data →
        (∀ r ∈ ScreenRegistry,
          ¬ ∃ pre k, u.data = pre ++ List.replicate k '/' ∧
            pre.map Char.toUpper = r.path.data.map Char.toUpper) →
        renderShell d (navigate u s) = { bar := AppBar, content := [] }) ∧
      renderShell d (navigate "/" s) = { bar := AppBar, content := [] } ∧
      renderShell d (navigate "" s) = { bar := AppBar, content := [] } ∧
      renderShell d (navigate "/login/x" s) = { bar := AppBar, content := [] } := by
  simp only [render_navigate]
  have key : ∀ v : String,
      (∀ r ∈ ScreenRegistry,
        ¬ ∃ pre k, (decodedPathname d v).data = pre ++ List.replicate k '/' ∧
          pre.map Char.toUpper = r.path.data.map Char.toUpper) →
      App d v = { bar := AppBar, content := [] } := by
    intro v hv
    have h1 : matchPath "/register" (decodedPathname d v) = false := by
      have := hv ⟨"/register", Screen.Register⟩ (by simp [ScreenRegistry])
      rw [← matchPath_registry_iff _ (by simp [ScreenRegistry])] at this
      simpa using this
    have h2 : matchPath "/login" (decodedPathname d v) = false := by
      have := hv ⟨"/login", Screen.Login⟩ (by simp [ScreenRegistry])
      rw [← matchPath_registry_iff _ (by simp [ScreenRegistry])] at this
      simpa using this
    simp [App, Routes_registry, h1, h2]
  refine ⟨key u, ?_, ?_, ?_, ?_⟩
  · intro hfree hu
    by_cases he : u = ""
    · subst he
      rw [App_of_fixed d "" (by decide)]
      decide
    · apply key
      rw [decodedPathname_of_fixed d u hfree, if_neg he]
      exact hu
  · rw [App_of_fixed d "/" (by decide)]
    decide
  · rw [App_of_fixed d "" (by decide)]
    decide
  · rw [App_of_fixed d "/login/x" (by decide)]
    decide

theorem unmatched_path_renders_blank_witness :
    '%' ∉ "/login/x".data ∧
      (∀ r ∈ ScreenRegistry,
        ¬ ∃ pre k, "/login/x".data = pre ++ List.replicate k '/' ∧
          pre.map Char.toUpper = r.path.data.map Char.toUpper) ∧
      renderShell Decoder.raw (navigate "/login/x" { path := "/login" }) =
        { bar := AppBar, content := [] } := by
  have hu : ∀ r ∈ ScreenRegistry, ¬ ∃ pre k,
      "/login/x".data = pre ++ List.replicate k '/' ∧
        pre.map Char.toUpper = r.path.data.map Char.toUpper := by
    intro r hr h
    exact absurd ((matchPath_registry_iff r hr "/login/x").mpr h)
      (by
        simp only [ScreenRegistry, List.mem_cons, List.mem_singleton,
          List.not_mem_nil, or_false] at hr
        rcases hr with rfl | rfl <;> decide)
  exact ⟨by decide, hu,
    (unmatched_path_renders_blank Decoder.raw "/login/x" { path := "/login" }).2.1
      (by decide) hu⟩

/-- C3, as stated, fails: at the current path `"/"` the shell shows the bar
and no screen at all, in every release of the router, so it is not the case
that exactly one screen is active. -/
theorem root_path_has_no_active_screen :
    (renderShell Decoder.raw { path := "/" }).bar = AppBar ∧
      (renderShell Decoder.raw { path := "/" }).content.length = 0 ∧
      ∀ d : Decoder,
        (renderShell d { path := "/" }).content.length = 0 ∧
        ¬ (∀ s : NavigationState, (renderShell d s).bar = AppBar ∧
            (renderShell d s).content.length = 1) := by
  refine ⟨by decide, by decide, fun d => ?_⟩
  have h0 : (renderShell d { path := "/" }).content.length = 0 := by
    show (App d "/").content.length = 0
    rw [App_of_fixed d "/" (by decide)]
    decide
  refine ⟨h0, fun h => ?_⟩
  have h1 := (h { path := "/" }).2
  rw [h0] at h1
  exact absurd h1 (by decide)

/-- C3, amended: for every value of NavigationState the output of
`renderShell()` contains the bar and at most one active screen; exactly one
screen is active when `resolve` finds a screen for the current path and none
is active otherwise. -/
theorem bar_and_at_most_one_screen (d : Decoder) (s : NavigationState) :
    (renderShell d s).bar = AppBar ∧
      (renderShell d s).content.length ≤ 1 ∧
      ((renderShell d s).content.length = 1 ↔ resolve d s.path ≠ none) ∧
      ((renderShell d s).content.length = 0 ↔ resolve d s.path = none) := by
  have hc : (renderShell d s).content = (resolve d s.path).toList := rfl
  rw [hc]
  refine ⟨rfl, ?_, ?_, ?_⟩ <;> cases resolve d s.path <;> simp

/-- C4: the bar is the same after every navigation: for all paths `p` and
`q` (and all starting states) the bar rendered after `navigate(p)` equals the
bar rendered after `navigate(q)`, and it consists of exactly two controls,
"Login" targeting `"/login"` and "Register" targeting `"/register"`, in that
order. -/
theorem bar_invariant_under_navigation (d : Decoder) (p q : String)
    (s t : NavigationState) :
    (renderShell d (navigate p s)).bar = (renderShell d (navigate q t)).bar ∧
      (renderShell d (navigate p s)).bar =
        [{ label := "Login", toPath := "/login" },
          { label := "Register", toPath := "/register" }] ∧
      (renderShell d (navigate p s)).bar.length = 2 :=
  ⟨rfl, rfl, rfl⟩

/-- C5: `navigate` is idempotent: for every path `p` and every starting
state, `navigate(p)` performed twice leaves the same NavigationState and the
same `renderShell()` output as `navigate(p)` performed once. -/
theorem navigate_idempotent (d : Decoder) (p : String) (s : NavigationState) :
    navigate p (navigate p s) = navigate p s ∧
      renderShell d (navigate p (navigate p s)) = renderShell d (navigate p s) :=
  ⟨rfl, rfl⟩

/-- C6: the last navigation alone decides what is shown: `navigate(p)`
followed by `navigate(q)` renders the same as `navigate(q)` alone, and
`navigate("/login")` followed by `navigate("/register")` shows only Register,
with Login not mounted. -/
theorem last_navigation_decides (d : Decoder) (p q : String)
    (s : NavigationState) :
    renderShell d (navigate q (navigate p s)) = renderShell d (navigate q s) ∧
      renderShell d (navigate "/register" (navigate "/login" s)) =
        { bar := AppBar, content := [Screen.Register] } ∧
      Screen.Login ∉
        (renderShell d (navigate "/register" (navigate "/login" s))).content := by
  simp only [render_navigate]
  rw [App_of_fixed d "/register" (by decide)]
  exact ⟨trivial, by decide, by decide⟩

/-- C7, as stated, fails: no Route of ScreenRegistry has the path
`"/REGISTER//"`, yet `resolve` does not return "not found" for it: in every
release of the router it returns the Register screen. -/
theorem resolve_finds_path_no_route_has :
    (∀ r ∈ ScreenRegistry, r.path ≠ "/REGISTER//") ∧
      resolve Decoder.raw "/REGISTER//" = some Screen.Register ∧
      ∀ d : Decoder, resolve d "/REGISTER//" = some Screen.Register := by
  refine ⟨by decide, by decide, fun d => ?_⟩
  rw [resolve_of_fixed d "/REGISTER//" (by decide)]
  decide

/-- C7, amended: `resolve` is a total, deterministic lookup: for every path
string it returns a result; it returns "not found" if and only if no Route of
ScreenRegistry matches the path as decoded by the router, a Route matching a
pathname that is a text equal to the route path up to ASCII letter case
followed by any number of slashes; otherwise it returns the screen of the
Route that matches.  A path without a percent sign is decoded to itself by
every release, so for such a path the condition can be read on the path
itself; in particular a Route whose path is exactly the given path yields its
screen. -/
theorem resolve_total_lookup (d : Decoder) (p : String) :
    (resolve d p = none ∨ resolve d p = some Screen.Register ∨
        resolve d p = some Screen.Login) ∧
      (resolve d p = none ↔ ∀ r ∈ ScreenRegistry,
        ¬ ∃ pre k, (decodedPathname d p).data = pre ++ List.replicate k '/' ∧
          pre.map Char.toUpper = r.path.data.map Char.toUpper) ∧
      (∀ r ∈ ScreenRegistry,
        (∃ pre k, (decodedPathname d p).data = pre ++ List.replicate k '/' ∧
          pre.map Char.toUpper = r.path.data.map Char.toUpper) →
        resolve d p = some r.element) ∧
      ('%' ∉ p.data →
        (resolve d p = none ↔ ∀ r ∈ ScreenRegistry,
          ¬ ∃ pre k, p.data = pre ++ List.replicate k '/' ∧
            pre.map Char.toUpper = r.path.data.map Char.toUpper) ∧
        (∀ r ∈ ScreenRegistry,
          (∃ pre k, p.data = pre ++ List.replicate k '/' ∧
            pre.map Char.toUpper = r.path.data.map Char.toUpper) →
          resolve d p = some r.element)) ∧
      (∀ r ∈ ScreenRegistry, r.path = p → resolve d p = some r.element) := by
  have main : ∀ v : String,
      (Routes d ScreenRegistry p =
        if matchPath "/register" v = true then some Screen.Register
        else if matchPath "/login" v = true then some Screen.Login
        else none) →
      (resolve d p = none ↔ ∀ r ∈ ScreenRegistry,
        ¬ ∃ pre k, v.data = pre ++ List.replicate k '/' ∧
          pre.map Char.toUpper = r.path.data.map Char.toUpper) ∧
      (∀ r ∈ ScreenRegistry,
        (∃ pre k, v.data = pre ++ List.replicate k '/' ∧
          pre.map Char.toUpper = r.path.data.map Char.toUpper) →
        resolve d p = some r.element) := by
    intro v hr
    have hx := matchPath_exclusive v
    have e1 := matchPath_registry_iff ⟨"/register", Screen.Register⟩
      (by simp [ScreenRegistry]) v
    have e2 := matchPath_registry_iff ⟨"/login", Screen.Login⟩
      (by simp [ScreenRegistry]) v
    unfold resolve
    rw [hr]
    simp only [ScreenRegistry, List.mem_cons, List.mem_singleton, List.not_mem_nil,
      or_false, forall_eq_or_imp, forall_eq, ← e1, ← e2]
    constructor <;> split_ifs <;> simp_all
  have hr := Routes_registry d p
  refine ⟨?_, (main _ hr).1, (main _ hr).2, ?_, ?_⟩
  · unfold resolve
    rw [hr]
    split_ifs <;> simp
  · intro hfree
    by_cases he : p = ""
    · subst he
      have h0 : Routes d ScreenRegistry "" =
          if matchPath "/register" "" = true then some Screen.Register
          else if matchPath "/login" "" = true then some Screen.Login
          else none := by
        rw [Routes_of_fixed d _ "" (by decide)]
        decide
      exact main "" h0
    · have hd : decodedPathname d p = p := by
        rw [decodedPathname_of_fixed d p hfree, if_neg he]
      rw [hd] at hr
      exact main p hr
  · intro r hr2 hpath
    subst hpath
    simp only [ScreenRegistry, List.mem_cons, List.mem_singleton, List.not_mem_nil,
      or_false] at hr2
    rcases hr2 with rfl | rfl
    · rw [resolve_of_fixed d _ (by decide)]
      decide
    · rw [resolve_of_fixed d _ (by decide)]
      decide

theorem resolve_total_lookup_witness :
    '%' ∉ "/LogIn/".data ∧
      (∃ pre k, "/LogIn/".data = pre ++ List.replicate k '/' ∧
        pre.map Char.toUpper = "/login".data.map Char.toUpper) ∧
      resolve Decoder.raw "/LogIn/" = some Screen.Login := by
  have hm : ∃ pre k, "/LogIn/".data = pre ++ List.replicate k '/' ∧
      pre.map Char.toUpper = "/login".data.map Char.toUpper :=
    ⟨"/LogIn".data, 1, by decide, by decide⟩
  exact ⟨by decide, hm,
    ((resolve_total_lookup Decoder.raw "/LogIn/").2.2.2.1 (by decide)).2
      { path := "/login", element := Screen.Login } (by decide) hm⟩

/-- C8: ScreenRegistry holds exactly two Routes, with paths `"/register"`
and `"/login"`; no two Routes have the same path (and no pathname is matched
by both), so listing the Routes in another order does not change the result
of the lookup. -/
theorem registry_unique_keys (d : Decoder) (rs : List Route)
    (h : rs.Perm ScreenRegistry) (p : String) :
    ScreenRegistry.length = 2 ∧
      ScreenRegistry.map Route.path = ["/register", "/login"] ∧
      (ScreenRegistry.map Route.path).Nodup ∧
      ¬ (matchPath "/register" p = true ∧ matchPath "/login" p = true) ∧
      Routes d rs p = resolve d p := by
  refine ⟨rfl, rfl, by decide, matchPath_exclusive p, ?_⟩
  rcases perm_registry rs h with rfl | rfl
  · rfl
  · exact Routes_registry_reverse d p

theorem registry_unique_keys_witness :
    ScreenRegistry.reverse.Perm ScreenRegistry ∧
      Routes Decoder.raw ScreenRegistry.reverse "/login" =
        resolve Decoder.raw "/login" :=
  ⟨List.reverse_perm ScreenRegistry,
    (registry_unique_keys Decoder.raw ScreenRegistry.reverse
      (List.reverse_perm ScreenRegistry) "/login").2.2.2.2⟩

/-- C9: for every path string `t`, registered or not, and every starting
state, the current path after `navigate(t)` is exactly `t`.  The registry is
a constant that no operation touches: what is rendered after the navigation
is `App` at `t`, whatever the state was before, and a path `q` renders after
the navigation exactly as it would have without it.  `renderShell()` is a
function of the state that returns a view and nothing else, so it leaves the
state as it is. -/
theorem navigate_sets_current_path (d : Decoder) (t q : String)
    (s : NavigationState) :
    (navigate t s).path = t ∧
      renderShell d (navigate t s) = App d t ∧
      renderShell d (navigate q (navigate t s)) = renderShell d (navigate q s) :=
  ⟨rfl, rfl, rfl⟩

/-- C10: every control of the bar targets a registered path whose screen
carries the control's label: the target of "Login" resolves to the Login
screen and the target of "Register" to the Register screen, so activating a
control never leaves the content region blank. -/
theorem bar_controls_reach_their_screens (d : Decoder) (b : Button)
    (hb : b ∈ AppBar) (s : NavigationState) :
    (resolve d b.toPath).map Screen.name = some b.label ∧
      (renderShell d (navigate b.toPath s)).content ≠ [] ∧
      (b.label = "Login" → resolve d b.toPath = some Screen.Login) ∧
      (b.label = "Register" → resolve d b.toPath = some Screen.Register) := by
  simp only [render_navigate]
  simp only [AppBar, List.mem_cons, List.mem_singleton, List.not_mem_nil,
    or_false] at hb
  rcases hb with rfl | rfl
  · rw [resolve_of_fixed d _ (by decide), App_of_fixed d _ (by decide)]
    decide
  · rw [resolve_of_fixed d _ (by decide), App_of_fixed d _ (by decide)]
    decide

theorem bar_controls_reach_their_screens_witness :
    ({ label := "Login", toPath := "/login" } : Button) ∈ AppBar ∧
      resolve Decoder.raw "/login" = some Screen.Login :=
  ⟨by decide,
    (bar_controls_reach_their_screens Decoder.raw
      { label := "Login", toPath := "/login" } (by decide) { path := "/" }).2.2.1
      rfl⟩

end Client
